import Mathlib

/-!
Shallow embedding of the x-mod/tcpserver connection-acceptor core
(src/tcpserver.go) and proofs about its lifecycle.

Modelling choices, stated once:

* The `event.Event` one-shot latch (dependency `github.com/x-mod/event`) is
  modelled as a boolean `fired` flag with idempotent `fire`,
  `hasFired`, and an observable completion signal.
* `net.Listener` values are opaque tokens; `net.Listen` success or failure is
  an oracle parameter `bindFail : Option String` (`some m` = the bind fails
  with error message `m`).  `tls.NewListener` is the `NetListener.tlsWrapped`
  constructor.  Handler capabilities and `tls.Config` values are opaque `Nat`
  tokens (the Go code only compares them to `nil` and stores them).
* `Serve`'s accept loop consumes a finite script of environment outcomes
  (`AcceptResult`): context cancellation observed, an accept error marked
  temporary or not, or an accepted connection together with the result of its
  handler.  An exhausted script means the loop is still running (no exit, so
  no deferred cleanup has run).
* Dispatched connection goroutines are scheduled under one legal Go
  interleaving: each runs to completion immediately after dispatch.  The loop
  goroutine writes the shared `ctx` variable exactly as the source does, so
  the per-connection tracing attachment mutates state shared by all
  dispatched units, as in the source (`ctx = trace.NewContext(ctx, tr)`).
* Observable actions (latch firings, listener close, log emissions, handler
  dispatches, cancellation-handle operations) are recorded in an event trace
  `List Ev` so that ordering claims become statements about traces.
-/

namespace TCPServer

/-- One-shot latch, the model of `event.Event`. -/
structure Event where
  fired : Bool
deriving Repr, DecidableEq

/-- `event.New()`: a fresh, unfired latch. -/
def Event.new : Event := ⟨false⟩

/-- `(*Event).Fire()`: monotonic, idempotent firing. -/
def Event.fire (_ : Event) : Event := ⟨true⟩

/-- `(*Event).HasFired()`. -/
def Event.hasFired (e : Event) : Bool := e.fired

/-- Listener tokens: externally supplied (`raw`), produced by `net.Listen`
(`bound`), or wrapped by `tls.NewListener` (`tlsWrapped`). -/
inductive NetListener
  | raw (id : Nat)
  | bound (network : String) (address : String)
  | tlsWrapped (inner : NetListener) (cfg : Nat)
deriving Repr, DecidableEq

/-- The `Server` struct of src/tcpserver.go.  The `events`/`mu` fields (the
instrumentation sink and its mutex) carry no lifecycle state and are omitted;
log emissions appear in the event trace instead.  `hasCtxCancel` records
whether the `ctxCancel` field holds a non-nil function. -/
structure Server where
  name : String
  network : String
  address : String
  handler : Option Nat
  traced : Bool
  listener : Option NetListener
  tls : Option Nat
  openned : Event
  stopped : Event
  serving : Event
  hasCtxCancel : Bool
deriving Repr, DecidableEq

/-- `ServerOpt` typedef. -/
def ServerOpt := Server → Server

/-- `Name` option: stores its argument unconditionally. -/
def Name (name : String) : ServerOpt := fun srv => { srv with name := name }

/-- `Network` option: ignored when the string is empty. -/
def Network (inet : String) : ServerOpt := fun srv =>
  if inet.length ≠ 0 then { srv with network := inet } else srv

/-- `Address` option: ignored when the string is empty. -/
def Address (addr : String) : ServerOpt := fun srv =>
  if addr.length ≠ 0 then { srv with address := addr } else srv

/-- `TLSConfig` option: stores its argument unconditionally. -/
def TLSConfig (tls : Option Nat) : ServerOpt := fun srv => { srv with tls := tls }

/-- `Listener` option: ignored when the listener is nil. -/
def Listener (ln : Option NetListener) : ServerOpt := fun srv =>
  match ln with
  | some l => { srv with listener := some l }
  | none => srv

/-- `TCPHandler` option: ignored when the handler is nil. -/
def TCPHandler (h : Option Nat) : ServerOpt := fun srv =>
  match h with
  | some hh => { srv with handler := some hh }
  | none => srv

/-- `NetTrace` option: stores the flag unconditionally. -/
def NetTrace (flag : Bool) : ServerOpt := fun srv => { srv with traced := flag }

/-- First-order description of an option built from the package's exported
option constructors, so that statements can quantify over all configurations
reachable through the public API. -/
inductive OptSpec
  | name (s : String)
  | network (s : String)
  | address (s : String)
  | tlsConfig (c : Option Nat)
  | listener (l : Option NetListener)
  | tcpHandler (h : Option Nat)
  | netTrace (b : Bool)
deriving Repr, DecidableEq

/-- Interpret an `OptSpec` as the corresponding option function. -/
def applyOpt (o : OptSpec) (srv : Server) : Server :=
  match o with
  | .name s => Name s srv
  | .network s => Network s srv
  | .address s => Address s srv
  | .tlsConfig c => TLSConfig c srv
  | .listener l => Listener l srv
  | .tcpHandler h => TCPHandler h srv
  | .netTrace b => NetTrace b srv

/-- The default-initialized server of `New` before options are applied.
Go zero values fill the fields `New` does not set. -/
def defaultServer : Server :=
  { name := "tcpserver"
    network := "tcp"
    address := ""
    handler := none
    traced := false
    listener := none
    tls := none
    openned := Event.new
    stopped := Event.new
    serving := Event.new
    hasCtxCancel := false }

/-- `New(opts...)`: apply the options in order to the default server.  The
`trace.NewEventLog` call touches only the omitted instrumentation sink. -/
def New (opts : List OptSpec) : Server :=
  opts.foldl (fun s o => applyOpt o s) defaultServer

/-- Observable actions of a server run, in program order. -/
inductive Ev
  | openedFire
  | servingFire
  | stoppedFire
  | listenerClose
  | ctxCancelSet
  | ctxCancelCall
  | wgroupWait
  | bindListen (network : String) (address : String)
  | logInfo (msg : String)
  | logError (msg : String)
  | dispatch (remoteAddr : String) (ctxSpans : List String)
  | finishSpan (remoteAddr : String)
deriving Repr, DecidableEq

/-- Errors `Open`/`Serve` can return.  Distinct constructors model Go's
distinct error values: the `fmt.Errorf` configuration error, an error from
`net.Listen`, `ctx.Err()` (= `context.Canceled`), and a terminal error from
`Accept`. -/
inductive ServeError
  | configErr (msg : String)
  | bindErr (msg : String)
  | cancelErr
  | acceptErr (msg : String)
deriving Repr, DecidableEq

/-- The `if srv.tls != nil` wrapping step at the end of `Open`. -/
def applyTLS (srv : Server) : Server :=
  match srv.tls, srv.listener with
  | some c, some l => { srv with listener := some (NetListener.tlsWrapped l c) }
  | _, _ => srv

/-- `(*Server).Open()` with the bind oracle `bindFail`.  Returns the updated
server, the trace of observable actions, and the returned error (if any). -/
def Server.openWith (srv : Server) (bindFail : Option String) :
    Server × List Ev × Option ServeError :=
  if srv.openned.hasFired then (srv, [], none)
  else if srv.handler.isNone then
    (srv, [], some (ServeError.configErr "tcpserver.Handler required"))
  else
    match srv.listener, bindFail with
    | none, some m => (srv, [], some (ServeError.bindErr m))
    | none, none =>
        let srv1 := applyTLS
          { srv with listener := some (NetListener.bound srv.network srv.address) }
        ({ srv1 with openned := srv1.openned.fire },
         [Ev.bindListen srv.network srv.address,
          Ev.logInfo (srv.name ++ " serving at " ++ srv.network ++ ":" ++ srv.address),
          Ev.openedFire], none)
    | some _, _ =>
        let srv1 := applyTLS srv
        ({ srv1 with openned := srv1.openned.fire }, [Ev.openedFire], none)

/-- One environment outcome per accept-loop iteration: the scoped context is
observed cancelled, `Accept` fails (with Go's `net.Error.Temporary()`
classification), or `Accept` yields a connection whose handler then returns
`handlerErr`. -/
inductive AcceptResult
  | cancelled
  | acceptFail (temporary : Bool) (msg : String)
  | conn (remoteAddr : String) (handlerErr : Option String)
deriving Repr, DecidableEq

/-- Log emission of a dispatched unit after its handler returns. -/
def handlerLogEvs (addr : String) : Option String → List Ev
  | some em => [Ev.logError ("client (" ++ addr ++ ") failed: " ++ em)]
  | none => []

/-- The `trace.FromContext` / `tr.Finish()` step of a dispatched unit: the
most recently attached span, if any, is finished. -/
def finishSpanEvs : Option String → List Ev
  | some s => [Ev.finishSpan s]
  | none => []

/-- The `for { select { ... } }` accept loop of `Serve`.  `spans` is the
current value of the shared `ctx` variable, represented by the list of
tracing spans attached to it so far; the dispatched goroutine's
`ctx = trace.NewContext(ctx, tr)` appends to it, as the source mutates the
variable shared by all dispatched units.  Returns the loop's trace and its
outcome: `none` when the script is exhausted with the loop still running,
`some e` when the loop exits returning `e`. -/
def serveLoop (nm : String) (traced : Bool) :
    List String → List AcceptResult → List Ev × Option ServeError
  | _, [] => ([], none)
  | _, AcceptResult.cancelled :: _ =>
      ([Ev.logError (nm ++ " stopped: context canceled")], some ServeError.cancelErr)
  | spans, AcceptResult.acceptFail true m :: rest =>
      let r := serveLoop nm traced spans rest
      (Ev.logError (nm ++ " accept temp err: " ++ m) :: r.1, r.2)
  | _, AcceptResult.acceptFail false m :: _ =>
      ([Ev.logError (nm ++ " accept failed: " ++ m)], some (ServeError.acceptErr m))
  | spans, AcceptResult.conn addr herr :: rest =>
      let spans1 := if traced then spans ++ [addr] else spans
      let r := serveLoop nm traced spans1 rest
      (Ev.dispatch addr spans1
         :: (handlerLogEvs addr herr ++ finishSpanEvs spans1.getLast? ++ r.1), r.2)

/-- Emission for an `Event.Fire` call: a latch that has already fired emits
no observable action. -/
def fireEvs (e : Event) (tag : Ev) : List Ev :=
  if e.hasFired then [] else [tag]

/-- `(*Server).Serve(ctx)`.  Mirrors the source order: call `Open`; register
`defer srv.listener.Close()` then `defer srv.stopped.Fire()` (so on exit the
`Stopped` fire runs first, the listener close second); fire `Serving`; only
then derive the child context and store its cancellation handle; run the
accept loop.  When the script is exhausted the loop is still running and no
deferred action has run. -/
def Server.serveWith (srv : Server) (bindFail : Option String)
    (script : List AcceptResult) : Server × List Ev × Option ServeError :=
  match srv.openWith bindFail with
  | (srv1, evs, some e) => (srv1, evs, some e)
  | (srv1, evs, none) =>
      let servingEvs := fireEvs srv1.serving Ev.servingFire
      let srv2 := { srv1 with serving := srv1.serving.fire, hasCtxCancel := true }
      let lr := serveLoop srv2.name srv2.traced [] script
      match lr.2 with
      | none => (srv2, evs ++ servingEvs ++ [Ev.ctxCancelSet] ++ lr.1, none)
      | some e =>
          ({ srv2 with stopped := srv2.stopped.fire },
           evs ++ servingEvs ++ [Ev.ctxCancelSet] ++ lr.1
             ++ fireEvs srv2.stopped Ev.stoppedFire ++ [Ev.listenerClose],
           some e)

/-- The user-level sequence `Open(); Serve(ctx)` (the second, internal `Open`
inside `Serve` sees the fired `Opened` latch). -/
def openThenServe (srv : Server) (bindFail : Option String)
    (script : List AcceptResult) : Server × List Ev × Option ServeError :=
  match srv.openWith bindFail with
  | (srv1, evs, some e) => (srv1, evs, some e)
  | (srv1, evs, none) =>
      let r := srv1.serveWith bindFail script
      (r.1, evs ++ r.2.1, r.2.2)

/-- What `Close` returns: the `Stopped` latch's completion channel, or the
already-closed channel `event.Done()`. -/
inductive CloseRet
  | stoppedChan
  | doneChan
deriving Repr, DecidableEq

/-- Whether the channel returned by `Close` is already satisfied in the given
server state. -/
def CloseRet.satisfiedNow (r : CloseRet) (srv : Server) : Bool :=
  match r with
  | .stoppedChan => srv.stopped.hasFired
  | .doneChan => true

/-- `(*Server).Close()`.  `none` models the nil-dereference panic the source
hits when `Serving` has fired but `listener` or `ctxCancel` is still nil. -/
def Server.close (srv : Server) : Option (Server × List Ev × CloseRet) :=
  if srv.serving.hasFired then
    match srv.listener, srv.hasCtxCancel with
    | some _, true =>
        some (srv, [Ev.listenerClose, Ev.ctxCancelCall, Ev.wgroupWait],
              CloseRet.stoppedChan)
    | _, _ => none
  else some (srv, [], CloseRet.doneChan)

/-- Index of the first occurrence of an event in a trace. -/
def idxOf (a : Ev) : List Ev → Option Nat
  | [] => none
  | e :: t => if e = a then some 0 else (idxOf a t).map (· + 1)

/-- `a` occurs in the trace strictly before the first occurrence of `b`. -/
def firesBefore (a b : Ev) (t : List Ev) : Bool :=
  match idxOf a t, idxOf b t with
  | some i, some j => decide (i < j)
  | _, _ => false

/-- Number of occurrences of an event in a trace. -/
def countEv (a : Ev) : List Ev → Nat
  | [] => 0
  | e :: t => (if e = a then 1 else 0) + countEv a t

/-- Events that the accept loop itself can emit. -/
def isLoopEv : Ev → Bool
  | .logError _ => true
  | .dispatch _ _ => true
  | .finishSpan _ => true
  | _ => false

/-- A concrete server: a handler and an externally supplied listener. -/
def demoServer : Server :=
  New [OptSpec.tcpHandler (some 0), OptSpec.listener (some (NetListener.raw 0))]

/-- The trace of `demoServer.Serve` run against a script that cancels the
context on the first loop iteration. -/
def demoTrace : List Ev := (demoServer.serveWith none [AcceptResult.cancelled]).2.1

/-- The server state after that serve run: serving, stopped, with the
cancellation handle stored. -/
def demoAfterServe : Server := (demoServer.serveWith none [AcceptResult.cancelled]).1

/-- A server carrying an external listener, a handler and a TLS
configuration, before `Open`. -/
def tlsDemoServer : Server :=
  New [OptSpec.listener (some (NetListener.raw 7)), OptSpec.tcpHandler (some 3),
    OptSpec.tlsConfig (some 5)]

/-- A server built only with an external listener: no handler. -/
def listenerOnlyServer : Server :=
  New [OptSpec.listener (some (NetListener.raw 7))]

/-- The two-connection traced script exhibiting span sharing. -/
def leakScript : List AcceptResult :=
  [AcceptResult.conn "client-1" none, AcceptResult.conn "client-2" none]

lemma countEv_append (a : Ev) (s t : List Ev) :
    countEv a (s ++ t) = countEv a s + countEv a t := by
  induction s with
  | nil => simp [countEv]
  | cons e s ih => simp [countEv, ih]; omega

lemma countEv_eq_zero (a : Ev) (t : List Ev) (h : a ∉ t) : countEv a t = 0 := by
  induction t with
  | nil => rfl
  | cons e t ih =>
      simp only [List.mem_cons, not_or] at h
      simp [countEv, ih h.2, Ne.symm h.1]

lemma applyTLS_fields (srv : Server) :
    (applyTLS srv).name = srv.name ∧ (applyTLS srv).network = srv.network
    ∧ (applyTLS srv).address = srv.address ∧ (applyTLS srv).handler = srv.handler
    ∧ (applyTLS srv).traced = srv.traced ∧ (applyTLS srv).tls = srv.tls
    ∧ (applyTLS srv).openned = srv.openned ∧ (applyTLS srv).stopped = srv.stopped
    ∧ (applyTLS srv).serving = srv.serving
    ∧ (applyTLS srv).hasCtxCancel = srv.hasCtxCancel := by
  unfold applyTLS
  split <;> simp

lemma applyOpt_latches (o : OptSpec) (srv : Server) :
    (applyOpt o srv).openned = srv.openned ∧ (applyOpt o srv).serving = srv.serving
    ∧ (applyOpt o srv).stopped = srv.stopped
    ∧ (applyOpt o srv).hasCtxCancel = srv.hasCtxCancel := by
  cases o <;>
    simp only [applyOpt, Name, Network, Address, TLSConfig, Listener, TCPHandler,
      NetTrace] <;>
    (try split) <;> simp

lemma New_latches (opts : List OptSpec) :
    (New opts).openned = Event.new ∧ (New opts).serving = Event.new
    ∧ (New opts).stopped = Event.new ∧ (New opts).hasCtxCancel = false := by
  have main : ∀ (l : List OptSpec) (srv : Server),
      (l.foldl (fun s o => applyOpt o s) srv).openned = srv.openned
      ∧ (l.foldl (fun s o => applyOpt o s) srv).serving = srv.serving
      ∧ (l.foldl (fun s o => applyOpt o s) srv).stopped = srv.stopped
      ∧ (l.foldl (fun s o => applyOpt o s) srv).hasCtxCancel = srv.hasCtxCancel := by
    intro l
    induction l with
    | nil => intro srv; simp
    | cons o rest ih =>
        intro srv
        have h1 := applyOpt_latches o srv
        have h2 := ih (applyOpt o srv)
        simp only [List.foldl_cons]
        exact ⟨h2.1.trans h1.1, (h2.2.1).trans h1.2.1,
          (h2.2.2.1).trans h1.2.2.1, (h2.2.2.2).trans h1.2.2.2⟩
  exact main opts defaultServer

lemma handlerLogEvs_mem (addr : String) (o : Option String) (e : Ev)
    (h : e ∈ handlerLogEvs addr o) : ∃ m, e = Ev.logError m := by
  cases o <;> simp [handlerLogEvs] at h
  exact ⟨_, h⟩

lemma finishSpanEvs_mem (o : Option String) (e : Ev)
    (h : e ∈ finishSpanEvs o) : ∃ s, e = Ev.finishSpan s := by
  cases o <;> simp [finishSpanEvs] at h
  exact ⟨_, h⟩

lemma serveLoop_events (nm : String) (traced : Bool) :
    ∀ (script : List AcceptResult) (spans : List String),
      ∀ e ∈ (serveLoop nm traced spans script).1, isLoopEv e = true := by
  intro script
  induction script with
  | nil => intro spans e he; simp [serveLoop] at he
  | cons a rest ih =>
      intro spans e he
      match a with
      | AcceptResult.cancelled =>
          simp [serveLoop] at he
          simp [he, isLoopEv]
      | AcceptResult.acceptFail true m =>
          simp only [serveLoop, List.mem_cons] at he
          rcases he with h1 | h2
          · simp [h1, isLoopEv]
          · exact ih spans e h2
      | AcceptResult.acceptFail false m =>
          simp [serveLoop] at he
          simp [he, isLoopEv]
      | AcceptResult.conn addr herr =>
          simp only [serveLoop, List.mem_cons, List.mem_append] at he
          rcases he with h1 | (h2 | h3) | h4
          · simp [h1, isLoopEv]
          · obtain ⟨m, hm⟩ := handlerLogEvs_mem addr herr e h2
            simp [hm, isLoopEv]
          · obtain ⟨s, hs⟩ := finishSpanEvs_mem _ e h3
            simp [hs, isLoopEv]
          · exact ih _ e h4

lemma openWith_fields (srv : Server) (bf : Option String) :
    (srv.openWith bf).1.serving = srv.serving ∧ (srv.openWith bf).1.stopped = srv.stopped
    ∧ (srv.openWith bf).1.name = srv.name ∧ (srv.openWith bf).1.traced = srv.traced := by
  unfold Server.openWith
  split
  · exact ⟨rfl, rfl, rfl, rfl⟩
  · split
    · exact ⟨rfl, rfl, rfl, rfl⟩
    · split
      · exact ⟨rfl, rfl, rfl, rfl⟩
      · have h := applyTLS_fields
          { srv with listener := some (NetListener.bound srv.network srv.address) }
        exact ⟨h.2.2.2.2.2.2.2.2.1, h.2.2.2.2.2.2.2.1, h.1, h.2.2.2.2.1⟩
      · have h := applyTLS_fields srv
        exact ⟨h.2.2.2.2.2.2.2.2.1, h.2.2.2.2.2.2.2.1, h.1, h.2.2.2.2.1⟩

lemma openWith_events (srv : Server) (bf : Option String) :
    ∀ e ∈ (srv.openWith bf).2.1,
      e = Ev.openedFire ∨ e = Ev.bindListen srv.network srv.address
        ∨ ∃ s, e = Ev.logInfo s := by
  unfold Server.openWith
  split
  · simp
  · split
    · simp
    · split <;> intro e he <;> simp at he
      · rcases he with h1 | h2 | h3
        · exact Or.inr (Or.inl h1)
        · exact Or.inr (Or.inr ⟨_, h2⟩)
        · exact Or.inl h3
      · exact Or.inl he

lemma openWith_opened (srv : Server) (bf : Option String)
    (h : (srv.openWith bf).2.2 = none) (h0 : srv.openned.hasFired = false) :
    (srv.openWith bf).1.openned.hasFired = true := by
  simp only [Event.hasFired] at h0
  by_cases hh : srv.handler.isNone
  · simp [Server.openWith, Event.hasFired, h0, hh] at h
  · rcases hl : srv.listener with _ | l
    · rcases hbf : bf with _ | m
      · simp [Server.openWith, h0, hh, hl, Event.fire, Event.hasFired]
      · simp [Server.openWith, Event.hasFired, h0, hh, hl, hbf] at h
    · simp [Server.openWith, h0, hh, hl, Event.fire, Event.hasFired]

lemma openWith_success_shape (srv : Server) (bf : Option String)
    (h : (srv.openWith bf).2.2 = none) (h0 : srv.openned.hasFired = false) :
    (srv.openWith bf).2.1 = [Ev.openedFire]
    ∨ (srv.openWith bf).2.1
        = [Ev.bindListen srv.network srv.address,
           Ev.logInfo (srv.name ++ " serving at " ++ srv.network ++ ":" ++ srv.address),
           Ev.openedFire] := by
  simp only [Event.hasFired] at h0
  by_cases hh : srv.handler.isNone
  · simp [Server.openWith, Event.hasFired, h0, hh] at h
  · rcases hl : srv.listener with _ | l
    · rcases hbf : bf with _ | m
      · refine Or.inr ?_
        simp [Server.openWith, Event.hasFired, h0, hh, hl]
      · simp [Server.openWith, Event.hasFired, h0, hh, hl, hbf] at h
    · refine Or.inl ?_
      simp [Server.openWith, Event.hasFired, h0, hh, hl]

lemma serveWith_exit_shape (srv : Server) (bf : Option String)
    (script : List AcceptResult) (e : ServeError)
    (hOpen : (srv.openWith bf).2.2 = none)
    (hLoop : (serveLoop srv.name srv.traced [] script).2 = some e)
    (hSv : srv.serving.hasFired = false) (hSt : srv.stopped.hasFired = false) :
    (srv.serveWith bf script).2.1
      = (srv.openWith bf).2.1 ++ [Ev.servingFire, Ev.ctxCancelSet]
          ++ (serveLoop srv.name srv.traced [] script).1
          ++ [Ev.stoppedFire, Ev.listenerClose]
    ∧ (srv.serveWith bf script).2.2 = some e := by
  have hf := openWith_fields srv bf
  rcases hE : srv.openWith bf with ⟨srv1, evs, oe⟩
  rw [hE] at hOpen hf
  simp only at hOpen hf
  subst hOpen
  have hname : srv1.name = srv.name := hf.2.2.1
  have htr : srv1.traced = srv.traced := hf.2.2.2
  have hsv1 : srv1.serving = srv.serving := hf.1
  have hst1 : srv1.stopped = srv.stopped := hf.2.1
  unfold Server.serveWith
  rw [hE]
  simp only [hname, htr, hsv1, hst1, fireEvs, hSv, hSt]
  rw [hLoop]
  simp [Event.hasFired] at hSv hSt
  simp [hSv, hSt, Event.hasFired]

lemma openWith_noop (srv : Server) (bf : Option String)
    (h : srv.openned.hasFired = true) : srv.openWith bf = (srv, [], none) := by
  simp [Server.openWith, h]

lemma serveWith_prefix_shape (srv : Server) (bf : Option String)
    (script : List AcceptResult)
    (hOpen : (srv.openWith bf).2.2 = none) (hSv : srv.serving.hasFired = false) :
    ∃ rest, (srv.serveWith bf script).2.1
        = (srv.openWith bf).2.1 ++ [Ev.servingFire, Ev.ctxCancelSet] ++ rest
      ∧ (srv.serveWith bf script).1.hasCtxCancel = true := by
  have hf := openWith_fields srv bf
  rcases hE : srv.openWith bf with ⟨srv1, evs, oe⟩
  rw [hE] at hOpen hf
  simp only at hOpen hf
  subst hOpen
  have hname : srv1.name = srv.name := hf.2.2.1
  have htr : srv1.traced = srv.traced := hf.2.2.2
  have hsv1 : srv1.serving = srv.serving := hf.1
  unfold Server.serveWith
  rw [hE]
  simp only [hname, htr, hsv1, fireEvs, hSv]
  rcases hlr : (serveLoop srv.name srv.traced [] script).2 with _ | e
  · refine ⟨(serveLoop srv.name srv.traced [] script).1, ?_, ?_⟩ <;> simp
  · refine ⟨(serveLoop srv.name srv.traced [] script).1
        ++ fireEvs srv1.stopped Ev.stoppedFire ++ [Ev.listenerClose], ?_, ?_⟩ <;>
      simp [fireEvs]

lemma pre_events (srv : Server) (bf : Option String) (script : List AcceptResult) :
    ∀ x ∈ (srv.openWith bf).2.1 ++ [Ev.servingFire, Ev.ctxCancelSet]
        ++ (serveLoop srv.name srv.traced [] script).1,
      x = Ev.openedFire ∨ x = Ev.bindListen srv.network srv.address
        ∨ (∃ s, x = Ev.logInfo s) ∨ x = Ev.servingFire ∨ x = Ev.ctxCancelSet
        ∨ isLoopEv x = true := by
  intro x hx
  simp only [List.mem_append, List.mem_cons, List.not_mem_nil, or_false] at hx
  rcases hx with (h1 | h2) | h3
  · rcases openWith_events srv bf x h1 with h | h | h
    · exact Or.inl h
    · exact Or.inr (Or.inl h)
    · exact Or.inr (Or.inr (Or.inl h))
  · rcases h2 with h | h
    · exact Or.inr (Or.inr (Or.inr (Or.inl h)))
    · exact Or.inr (Or.inr (Or.inr (Or.inr (Or.inl h))))
  · exact Or.inr (Or.inr (Or.inr (Or.inr (Or.inr
      (serveLoop_events srv.name srv.traced script [] x h3)))))

lemma c3_shape_aux (A B T : List Ev)
    (hT : T = A ++ [Ev.openedFire, Ev.servingFire, Ev.ctxCancelSet] ++ B
        ++ [Ev.stoppedFire, Ev.listenerClose])
    (hA1 : Ev.openedFire ∉ A) (hA2 : Ev.servingFire ∉ A) (hA3 : Ev.stoppedFire ∉ A)
    (hA4 : ∀ a s, Ev.dispatch a s ∉ A)
    (hB : ∀ x ∈ B, isLoopEv x = true) :
    countEv Ev.openedFire T = 1 ∧ countEv Ev.servingFire T = 1
    ∧ countEv Ev.stoppedFire T = 1
    ∧ (∀ addr spans, Ev.dispatch addr spans ∈ T → Ev.dispatch addr spans ∈ B) := by
  have hBopen : Ev.openedFire ∉ B := by
    intro h; have := hB _ h; simp [isLoopEv] at this
  have hBserv : Ev.servingFire ∉ B := by
    intro h; have := hB _ h; simp [isLoopEv] at this
  have hBstop : Ev.stoppedFire ∉ B := by
    intro h; have := hB _ h; simp [isLoopEv] at this
  subst hT
  refine ⟨?_, ?_, ?_, ?_⟩
  · simp [countEv_append, countEv_eq_zero _ _ hA1, countEv_eq_zero _ _ hBopen, countEv]
  · simp [countEv_append, countEv_eq_zero _ _ hA2, countEv_eq_zero _ _ hBserv, countEv]
  · simp [countEv_append, countEv_eq_zero _ _ hA3, countEv_eq_zero _ _ hBstop, countEv]
  · intro addr spans hmem
    simp only [List.mem_append, List.mem_cons, List.not_mem_nil, or_false] at hmem
    rcases hmem with ((h1 | h2) | h3) | h4
    · exact absurd h1 (hA4 addr spans)
    · rcases h2 with h | h | h <;> simp at h
    · exact h3
    · rcases h4 with h | h <;> simp at h

/-- C5: if the server has reached the serving state (and, as on every
reachable serving state, the listener and the stored cancellation handle are
set), `Close` performs, in order: close the listener, invoke the stored
serve-scoped cancellation handle, block until the outstanding-connection
counter drains, and return the `Stopped` completion channel; the server state
is returned unchanged, so `Close` itself fires no latch. -/
theorem c5_close_when_serving (srv : Server) (l : NetListener)
    (hs : srv.serving.hasFired = true) (hl : srv.listener = some l)
    (hc : srv.hasCtxCancel = true) :
    srv.close
      = some (srv, [Ev.listenerClose, Ev.ctxCancelCall, Ev.wgroupWait],
          CloseRet.stoppedChan)
    ∧ Ev.stoppedFire ∉ [Ev.listenerClose, Ev.ctxCancelCall, Ev.wgroupWait]
    ∧ Ev.servingFire ∉ [Ev.listenerClose, Ev.ctxCancelCall, Ev.wgroupWait]
    ∧ Ev.openedFire ∉ [Ev.listenerClose, Ev.ctxCancelCall, Ev.wgroupWait] := by
  refine ⟨?_, by simp, by simp, by simp⟩
  simp [Server.close, hs, hl, hc]

/-- Witness for c5_close_when_serving: the state after a completed
`Serve` run. -/
theorem c5_close_when_serving_witness :
    (demoAfterServe.serving.hasFired = true
      ∧ demoAfterServe.listener = some (NetListener.raw 0)
      ∧ demoAfterServe.hasCtxCancel = true)
    ∧ demoAfterServe.close
        = some (demoAfterServe, [Ev.listenerClose, Ev.ctxCancelCall, Ev.wgroupWait],
            CloseRet.stoppedChan) :=
  ⟨⟨rfl, rfl, rfl⟩,
   (c5_close_when_serving demoAfterServe (NetListener.raw 0) rfl rfl rfl).1⟩

/-- C6: if the `Serving` latch has not fired, `Close` returns the
already-satisfied `event.Done()` channel, emits no action (in particular no
listener operation), and leaves the server unchanged. -/
theorem c6_close_before_serving (srv : Server)
    (hs : srv.serving.hasFired = false) :
    srv.close = some (srv, [], CloseRet.doneChan)
    ∧ CloseRet.satisfiedNow CloseRet.doneChan srv = true
    ∧ Ev.listenerClose ∉ ([] : List Ev) := by
  refine ⟨by simp [Server.close, hs], rfl, by simp⟩

/-- Witness for c6_close_before_serving: a freshly constructed server. -/
theorem c6_close_before_serving_witness :
    (New []).serving.hasFired = false
    ∧ (New []).close = some (New [], [], CloseRet.doneChan)
    ∧ CloseRet.satisfiedNow CloseRet.doneChan (New []) = true :=
  ⟨rfl, (c6_close_before_serving (New []) rfl).1, (c6_close_before_serving (New []) rfl).2.1⟩

/-- C7: for a server built by `New` from any option list, if the handler is
nil then `Serve` returns the configuration error immediately, with an empty
trace (no `Opened` firing, no listener bind) and the server unchanged; and
the configuration error differs from every bind, cancellation and accept
error. -/
theorem c7_nil_handler_config_error (opts : List OptSpec) (bf : Option String)
    (script : List AcceptResult) (h : (New opts).handler = none) :
    (New opts).serveWith bf script
      = (New opts, [], some (ServeError.configErr "tcpserver.Handler required"))
    ∧ (∀ m, ServeError.configErr "tcpserver.Handler required" ≠ ServeError.bindErr m)
    ∧ ServeError.configErr "tcpserver.Handler required" ≠ ServeError.cancelErr
    ∧ (∀ m, ServeError.configErr "tcpserver.Handler required" ≠ ServeError.acceptErr m) := by
  have h0 : (New opts).openned.hasFired = false := by
    rw [(New_latches opts).1]; rfl
  have hopen : (New opts).openWith bf
      = (New opts, [], some (ServeError.configErr "tcpserver.Handler required")) := by
    simp [Server.openWith, h0, h]
  refine ⟨?_, by simp, by simp, by simp⟩
  simp [Server.serveWith, hopen]

/-- Witness for c7_nil_handler_config_error: `New` with no options. -/
theorem c7_nil_handler_config_error_witness :
    (New []).handler = none
    ∧ (New []).serveWith none []
        = (New [], [], some (ServeError.configErr "tcpserver.Handler required")) :=
  ⟨rfl, (c7_nil_handler_config_error [] none [] rfl).1⟩

/-- C8: in the accept loop, an accept error marked temporary is logged and
the loop continues with an otherwise unchanged result; an accept error not
marked temporary is logged and ends the loop with exactly that error as the
terminal outcome; and any terminal accept-error outcome of the loop can only
come from a non-temporary accept failure in the script, so a temporary error
is never the loop's return value. -/
theorem c8_accept_error_classification :
    (∀ (nm : String) (traced : Bool) (spans : List String) (m : String)
        (rest : List AcceptResult),
      serveLoop nm traced spans (AcceptResult.acceptFail true m :: rest)
        = (Ev.logError (nm ++ " accept temp err: " ++ m)
             :: (serveLoop nm traced spans rest).1,
           (serveLoop nm traced spans rest).2))
    ∧ (∀ (nm : String) (traced : Bool) (spans : List String) (m : String)
        (rest : List AcceptResult),
      serveLoop nm traced spans (AcceptResult.acceptFail false m :: rest)
        = ([Ev.logError (nm ++ " accept failed: " ++ m)],
           some (ServeError.acceptErr m)))
    ∧ (∀ (nm : String) (traced : Bool) (spans : List String)
        (script : List AcceptResult) (m : String),
      (serveLoop nm traced spans script).2 = some (ServeError.acceptErr m) →
        AcceptResult.acceptFail false m ∈ script) := by
  refine ⟨fun nm traced spans m rest => rfl, fun nm traced spans m rest => rfl, ?_⟩
  intro nm traced spans script
  induction script generalizing spans with
  | nil => intro m h; simp [serveLoop] at h
  | cons a rest ih =>
      intro m h
      match a with
      | AcceptResult.cancelled => simp [serveLoop] at h
      | AcceptResult.acceptFail true m2 =>
          simp only [serveLoop] at h
          exact List.mem_cons_of_mem _ (ih spans m h)
      | AcceptResult.acceptFail false m2 =>
          simp [serveLoop] at h
          subst h
          exact List.mem_cons_self _ _
      | AcceptResult.conn addr herr =>
          simp only [serveLoop] at h
          exact List.mem_cons_of_mem _ (ih _ m h)

/-- Witness for c8_accept_error_classification: a temporary failure followed
by the listener-closed error ends the loop with exactly that error. -/
theorem c8_accept_error_classification_witness :
    (serveLoop "tcpserver" false []
        [AcceptResult.acceptFail true "EMFILE",
         AcceptResult.acceptFail false "use of closed network connection"]).2
      = some (ServeError.acceptErr "use of closed network connection")
    ∧ AcceptResult.acceptFail false "use of closed network connection"
        ∈ [AcceptResult.acceptFail true "EMFILE",
           AcceptResult.acceptFail false "use of closed network connection"] :=
  ⟨rfl, c8_accept_error_classification.2.2 "tcpserver" false []
      [AcceptResult.acceptFail true "EMFILE",
       AcceptResult.acceptFail false "use of closed network connection"]
      "use of closed network connection" rfl⟩

/-- C9 (code behavior at the failing input): with tracing enabled and two
connections accepted, the dispatched unit of the second connection receives a
context that already carries the first connection's span, because the source
assigns the refined context back to the `ctx` variable shared by all
dispatched units. -/
theorem c9_span_leak_across_connections :
    (serveLoop "tcpserver" true [] leakScript).1
      = [Ev.dispatch "client-1" ["client-1"], Ev.finishSpan "client-1",
         Ev.dispatch "client-2" ["client-1", "client-2"], Ev.finishSpan "client-2"]
    ∧ Ev.dispatch "client-2" ["client-1", "client-2"]
        ∈ (serveLoop "tcpserver" true [] leakScript).1
    ∧ "client-1" ∈ ["client-1", "client-2"]
    ∧ "client-1" ≠ "client-2" :=
  ⟨rfl, by decide, by decide, by decide⟩

/-- C10: `Name` and `TLSConfig` store their argument unconditionally
(`Name ""` overwrites the default display name `"tcpserver"` with the empty
string and `TLSConfig nil` clears a previously set configuration), whereas
`Network`, `Address`, `TCPHandler` and `Listener` ignore degenerate input. -/
theorem c10_option_degenerate_inputs :
    (New [OptSpec.name ""]).name = "" ∧ (New []).name = "tcpserver"
    ∧ (∀ (srv : Server) (c : Nat), (TLSConfig none { srv with tls := some c }).tls = none)
    ∧ (∀ srv : Server, Name "" srv = { srv with name := "" })
    ∧ (∀ srv : Server, TLSConfig none srv = { srv with tls := none })
    ∧ (∀ srv : Server, Network "" srv = srv)
    ∧ (∀ srv : Server, Address "" srv = srv)
    ∧ (∀ srv : Server, TCPHandler none srv = srv)
    ∧ (∀ srv : Server, Listener none srv = srv) := by
  refine ⟨rfl, rfl, fun srv c => rfl, fun srv => rfl, fun srv => rfl,
    fun srv => rfl, fun srv => rfl, fun srv => rfl, fun srv => rfl⟩

/-- C1 fails as stated: in a concrete serve run that exits through
cancellation, the `Stopped` latch fires at trace position 4, before the
listener close at position 5 — the deferred actions run in reverse
registration order, so the listener is NOT closed first and `Stopped` is
momentarily fired while the listener is still open. -/
theorem c1_counterexample :
    demoTrace
      = [Ev.openedFire, Ev.servingFire, Ev.ctxCancelSet,
         Ev.logError "tcpserver stopped: context canceled",
         Ev.stoppedFire, Ev.listenerClose]
    ∧ idxOf Ev.stoppedFire demoTrace = some 4
    ∧ idxOf Ev.listenerClose demoTrace = some 5
    ∧ firesBefore Ev.listenerClose Ev.stoppedFire demoTrace = false
    ∧ firesBefore Ev.stoppedFire Ev.listenerClose demoTrace = true :=
  ⟨rfl, rfl, rfl, rfl, rfl⟩

/-- C1 amended: on every exit of the accept loop, regardless of exit path,
the `Stopped` latch fires and the listener is closed immediately afterwards;
both happen exactly once, at the very end of the run, with the `Stopped`
firing first (deferred cleanups run in reverse registration order). -/
theorem c1_stop_fires_then_listener_closes (srv : Server) (bf : Option String)
    (script : List AcceptResult) (e : ServeError)
    (hOpen : (srv.openWith bf).2.2 = none)
    (hLoop : (serveLoop srv.name srv.traced [] script).2 = some e)
    (hSv : srv.serving.hasFired = false) (hSt : srv.stopped.hasFired = false) :
    ∃ pre, (srv.serveWith bf script).2.1 = pre ++ [Ev.stoppedFire, Ev.listenerClose]
      ∧ Ev.stoppedFire ∉ pre ∧ Ev.listenerClose ∉ pre
      ∧ (srv.serveWith bf script).2.2 = some e := by
  obtain ⟨hshape, hout⟩ := serveWith_exit_shape srv bf script e hOpen hLoop hSv hSt
  refine ⟨(srv.openWith bf).2.1 ++ [Ev.servingFire, Ev.ctxCancelSet]
      ++ (serveLoop srv.name srv.traced [] script).1, ?_, ?_, ?_, hout⟩
  · rw [hshape]
  · intro hmem
    rcases pre_events srv bf script _ hmem with h | h | ⟨s, h⟩ | h | h | h <;>
      simp [isLoopEv] at h
  · intro hmem
    rcases pre_events srv bf script _ hmem with h | h | ⟨s, h⟩ | h | h | h <;>
      simp [isLoopEv] at h

/-- Witness for c1_stop_fires_then_listener_closes at a concrete run. -/
theorem c1_stop_fires_then_listener_closes_witness :
    ((demoServer.openWith none).2.2 = none
      ∧ (serveLoop demoServer.name demoServer.traced [] [AcceptResult.cancelled]).2
          = some ServeError.cancelErr
      ∧ demoServer.serving.hasFired = false ∧ demoServer.stopped.hasFired = false)
    ∧ (∃ pre, (demoServer.serveWith none [AcceptResult.cancelled]).2.1
          = pre ++ [Ev.stoppedFire, Ev.listenerClose]
        ∧ Ev.stoppedFire ∉ pre ∧ Ev.listenerClose ∉ pre
        ∧ (demoServer.serveWith none [AcceptResult.cancelled]).2.2
            = some ServeError.cancelErr) :=
  ⟨⟨rfl, rfl, rfl, rfl⟩,
   c1_stop_fires_then_listener_closes demoServer none [AcceptResult.cancelled]
     ServeError.cancelErr rfl rfl rfl rfl⟩

/-- C2 fails as stated: a server whose listener was supplied externally but
whose `Opened` latch has not fired is NOT a no-op case of `Open` — with a
nil handler, `Open` still validates the handler and returns the
configuration error rather than success. -/
theorem c2_counterexample :
    listenerOnlyServer.listener = some (NetListener.raw 7)
    ∧ listenerOnlyServer.openned.hasFired = false
    ∧ listenerOnlyServer.openWith none
        = (listenerOnlyServer, [],
           some (ServeError.configErr "tcpserver.Handler required"))
    ∧ some (ServeError.configErr "tcpserver.Handler required")
        ≠ (none : Option ServeError) :=
  ⟨rfl, rfl, rfl, by simp⟩

/-- C2 amended: `Open` is a no-op returning success exactly when the `Opened`
latch has already fired.  When a listener was supplied externally but
`Opened` has not fired, `Open` skips only the bind step: it still validates
the handler (returning the configuration error on a nil handler), wraps the
listener with TLS when configured, and fires the `Opened` latch. -/
theorem c2_open_noop_only_when_opened (srv : Server) (bf : Option String) :
    (srv.openned.hasFired = true → srv.openWith bf = (srv, [], none))
    ∧ (srv.openned.hasFired = false → srv.handler = none →
        srv.openWith bf
          = (srv, [], some (ServeError.configErr "tcpserver.Handler required")))
    ∧ (∀ (l : NetListener) (hv : Nat), srv.openned.hasFired = false →
        srv.listener = some l → srv.handler = some hv →
        srv.openWith bf
          = ({ applyTLS srv with openned := Event.fire (applyTLS srv).openned },
             [Ev.openedFire], none)) := by
  refine ⟨fun h => openWith_noop srv bf h, fun h0 hh => by simp [Server.openWith, h0, hh], ?_⟩
  intro l hv h0 hl hh
  simp [Server.openWith, h0, hh, hl]

/-- Witness for c2_open_noop_only_when_opened: an unopened server with an
external listener, a handler and a TLS configuration; `Open` wraps the
listener and fires `Opened`. -/
theorem c2_open_noop_only_when_opened_witness :
    (tlsDemoServer.openned.hasFired = false
      ∧ tlsDemoServer.listener = some (NetListener.raw 7)
      ∧ tlsDemoServer.handler = some 3
      ∧ (applyTLS tlsDemoServer).listener
          = some (NetListener.tlsWrapped (NetListener.raw 7) 5))
    ∧ tlsDemoServer.openWith none
        = ({ applyTLS tlsDemoServer with
              openned := Event.fire (applyTLS tlsDemoServer).openned },
           [Ev.openedFire], none) :=
  ⟨⟨rfl, rfl, rfl, rfl⟩,
   (c2_open_noop_only_when_opened tlsDemoServer none).2.2 (NetListener.raw 7) 3 rfl rfl rfl⟩

/-- C4 fails as stated: in a concrete serve run, the `Serving` latch fires at
trace position 1, before the serve-scoped cancellation handle is stored at
position 2 — so there is an instant at which `Serving` has fired while the
handle `Close` would invoke is still nil. -/
theorem c4_counterexample :
    idxOf Ev.servingFire demoTrace = some 1
    ∧ idxOf Ev.ctxCancelSet demoTrace = some 2
    ∧ firesBefore Ev.ctxCancelSet Ev.servingFire demoTrace = false
    ∧ firesBefore Ev.servingFire Ev.ctxCancelSet demoTrace = true :=
  ⟨rfl, rfl, rfl, rfl⟩

/-- C4 amended: `Serve` stores the serve-scoped cancellation handle
immediately AFTER firing the `Serving` latch and before any loop iteration;
in particular the handle is set before any connection is dispatched, and it
is set in the final state of every serve invocation that got past `Open`. -/
theorem c4_handle_set_after_serving_fire (srv : Server) (bf : Option String)
    (script : List AcceptResult)
    (hOpen : (srv.openWith bf).2.2 = none) (hSv : srv.serving.hasFired = false) :
    ∃ rest, (srv.serveWith bf script).2.1
        = (srv.openWith bf).2.1 ++ [Ev.servingFire, Ev.ctxCancelSet] ++ rest
      ∧ (∀ x ∈ (srv.openWith bf).2.1,
          x ≠ Ev.servingFire ∧ x ≠ Ev.ctxCancelSet ∧ ∀ a s, x ≠ Ev.dispatch a s)
      ∧ (srv.serveWith bf script).1.hasCtxCancel = true := by
  obtain ⟨rest, h1, h2⟩ := serveWith_prefix_shape srv bf script hOpen hSv
  refine ⟨rest, h1, ?_, h2⟩
  intro x hx
  rcases openWith_events srv bf x hx with h | h | ⟨s, h⟩ <;> subst h <;>
    exact ⟨by simp, by simp, by simp⟩

/-- Witness for c4_handle_set_after_serving_fire at a concrete run. -/
theorem c4_handle_set_after_serving_fire_witness :
    ((demoServer.openWith none).2.2 = none ∧ demoServer.serving.hasFired = false)
    ∧ (∃ rest, (demoServer.serveWith none [AcceptResult.cancelled]).2.1
          = (demoServer.openWith none).2.1 ++ [Ev.servingFire, Ev.ctxCancelSet] ++ rest
        ∧ (∀ x ∈ (demoServer.openWith none).2.1,
            x ≠ Ev.servingFire ∧ x ≠ Ev.ctxCancelSet ∧ ∀ a s, x ≠ Ev.dispatch a s)
        ∧ (demoServer.serveWith none [AcceptResult.cancelled]).1.hasCtxCancel = true) :=
  ⟨⟨rfl, rfl⟩,
   c4_handle_set_after_serving_fire demoServer none [AcceptResult.cancelled] rfl rfl⟩

/-- C3: for any configuration with a handler present, on which `Open`
succeeds and the subsequent `Serve` loop exits, the combined `Open(); Serve`
trace fires `Opened`, then `Serving`, then `Stopped`, each exactly once;
every connection dispatch happens after `Serving` fired (inside the loop
segment `B`); and re-firing an already-fired latch is a no-op. -/
theorem c3_lifecycle_order (srv : Server) (bf : Option String)
    (script : List AcceptResult) (e : ServeError) (hv : Nat)
    (hOp : srv.openned.hasFired = false) (hSv : srv.serving.hasFired = false)
    (hSt : srv.stopped.hasFired = false) (hH : srv.handler = some hv)
    (hOpen : (srv.openWith bf).2.2 = none)
    (hLoop : (serveLoop srv.name srv.traced [] script).2 = some e) :
    (∃ A B, (openThenServe srv bf script).2.1
        = A ++ [Ev.openedFire, Ev.servingFire, Ev.ctxCancelSet] ++ B
            ++ [Ev.stoppedFire, Ev.listenerClose]
      ∧ countEv Ev.openedFire ((openThenServe srv bf script).2.1) = 1
      ∧ countEv Ev.servingFire ((openThenServe srv bf script).2.1) = 1
      ∧ countEv Ev.stoppedFire ((openThenServe srv bf script).2.1) = 1
      ∧ (∀ x ∈ B, isLoopEv x = true)
      ∧ (∀ addr spans, Ev.dispatch addr spans ∈ (openThenServe srv bf script).2.1 →
            Ev.dispatch addr spans ∈ B))
    ∧ (∀ ev : Event, ev.hasFired = true → ev.fire = ev) := by
  constructor
  · have hf := openWith_fields srv bf
    have hopened := openWith_opened srv bf hOpen hOp
    have hshape0 := openWith_success_shape srv bf hOpen hOp
    rcases hE : srv.openWith bf with ⟨srv1, evs, oe⟩
    rw [hE] at hOpen hf hopened hshape0
    simp only at hOpen hf hopened hshape0
    subst hOpen
    have hname : srv1.name = srv.name := hf.2.2.1
    have htr : srv1.traced = srv.traced := hf.2.2.2
    have hsv1 : srv1.serving.hasFired = false := by rw [hf.1]; exact hSv
    have hst1 : srv1.stopped.hasFired = false := by rw [hf.2.1]; exact hSt
    have hnoop : srv1.openWith bf = (srv1, [], none) := openWith_noop srv1 bf hopened
    have hOpen1 : (srv1.openWith bf).2.2 = none := by rw [hnoop]
    have hLoop1 : (serveLoop srv1.name srv1.traced [] script).2 = some e := by
      rw [hname, htr]; exact hLoop
    have hexit := serveWith_exit_shape srv1 bf script e hOpen1 hLoop1 hsv1 hst1
    have hot : (openThenServe srv bf script).2.1 = evs ++ (srv1.serveWith bf script).2.1 := by
      unfold openThenServe
      rw [hE]
    have hB := serveLoop_events srv.name srv.traced script []
    rcases hshape0 with hA | hA
    · have hT : (openThenServe srv bf script).2.1
          = [] ++ [Ev.openedFire, Ev.servingFire, Ev.ctxCancelSet]
              ++ (serveLoop srv.name srv.traced [] script).1
              ++ [Ev.stoppedFire, Ev.listenerClose] := by
        rw [hot, hexit.1, hnoop, hname, htr, hA]
        simp
      have haux := c3_shape_aux [] (serveLoop srv.name srv.traced [] script).1
        ((openThenServe srv bf script).2.1) hT (by simp) (by simp) (by simp)
        (by simp) hB
      exact ⟨[], (serveLoop srv.name srv.traced [] script).1, hT,
        haux.1, haux.2.1, haux.2.2.1, hB, haux.2.2.2⟩
    · have hT : (openThenServe srv bf script).2.1
          = [Ev.bindListen srv.network srv.address,
             Ev.logInfo (srv.name ++ " serving at " ++ srv.network ++ ":" ++ srv.address)]
              ++ [Ev.openedFire, Ev.servingFire, Ev.ctxCancelSet]
              ++ (serveLoop srv.name srv.traced [] script).1
              ++ [Ev.stoppedFire, Ev.listenerClose] := by
        rw [hot, hexit.1, hnoop, hname, htr, hA]
        simp
      have haux := c3_shape_aux _ (serveLoop srv.name srv.traced [] script).1
        ((openThenServe srv bf script).2.1) hT (by simp) (by simp) (by simp)
        (by simp) hB
      exact ⟨_, (serveLoop srv.name srv.traced [] script).1, hT,
        haux.1, haux.2.1, haux.2.2.1, hB, haux.2.2.2⟩
  · intro ev hev
    cases ev with
    | mk f =>
        simp only [Event.hasFired] at hev
        simp [Event.fire, hev]

/-- Witness for c3_lifecycle_order at a concrete run. -/
theorem c3_lifecycle_order_witness :
    (demoServer.openned.hasFired = false ∧ demoServer.serving.hasFired = false
      ∧ demoServer.stopped.hasFired = false ∧ demoServer.handler = some 0
      ∧ (demoServer.openWith none).2.2 = none
      ∧ (serveLoop demoServer.name demoServer.traced [] [AcceptResult.cancelled]).2
          = some ServeError.cancelErr)
    ∧ ((∃ A B, (openThenServe demoServer none [AcceptResult.cancelled]).2.1
          = A ++ [Ev.openedFire, Ev.servingFire, Ev.ctxCancelSet] ++ B
              ++ [Ev.stoppedFire, Ev.listenerClose]
        ∧ countEv Ev.openedFire ((openThenServe demoServer none [AcceptResult.cancelled]).2.1) = 1
        ∧ countEv Ev.servingFire ((openThenServe demoServer none [AcceptResult.cancelled]).2.1) = 1
        ∧ countEv Ev.stoppedFire ((openThenServe demoServer none [AcceptResult.cancelled]).2.1) = 1
        ∧ (∀ x ∈ B, isLoopEv x = true)
        ∧ (∀ addr spans,
            Ev.dispatch addr spans ∈ (openThenServe demoServer none [AcceptResult.cancelled]).2.1 →
              Ev.dispatch addr spans ∈ B))
      ∧ (∀ ev : Event, ev.hasFired = true → ev.fire = ev)) :=
  ⟨⟨rfl, rfl, rfl, rfl, rfl, rfl⟩,
   c3_lifecycle_order demoServer none [AcceptResult.cancelled] ServeError.cancelErr 0
     rfl rfl rfl rfl rfl rfl⟩

end TCPServer
